import Mathlib

/-!
Shallow embedding of `cookbook/slackbot.py`: the Slack webhook relay
(`handle_message`), the response dispatcher (`generate_ai_response`), the
mention regex `<@(\w+)>` (`re.search` / `re.sub` / `str.strip`), and the
module-level `TTLCache(maxsize=1000, ttl=86400)` session store.
-/

namespace Slackbot

/-- ASCII core of the regex word character class used by the Python pattern
`<@(\w+)>` (letters, digits, underscore). -/
def isWordChar (c : Char) : Bool := c.isAlpha || c.isDigit || c == '_'

/-- Whitespace characters trimmed by Python `str.strip()` (ASCII core). -/
def isPySpace (c : Char) : Bool :=
  c == ' ' || c == '\t' || c == '\n' || c == '\r' || c == '\x0b' || c == '\x0c'

/-- Greedy run of word characters: the maximal prefix matched by `\w+`
together with the remaining characters. -/
def takeWord : List Char → List Char × List Char
  | [] => ([], [])
  | c :: cs =>
    if isWordChar c then
      let p := takeWord cs
      (c :: p.1, p.2)
    else
      ([], c :: cs)

theorem takeWord_append (l : List Char) : (takeWord l).1 ++ (takeWord l).2 = l := by
  induction l with
  | nil => rfl
  | cons c cs ih =>
    by_cases h : isWordChar c
    · simp only [takeWord, h, if_true, List.cons_append, ih]
    · simp [takeWord, h]

theorem takeWord_length_le (l : List Char) : (takeWord l).2.length ≤ l.length := by
  conv_rhs => rw [← takeWord_append l]
  rw [List.length_append]
  omega

/-- Attempt to match the regex `<@(\w+)>` at the head of the character list;
on success, return the captured group (the word after `<@`) and the
characters after the closing `>`.  Because `\w` never matches `>`, a greedy
match of `\w+` followed by `>` is exactly a maximal nonempty word run
followed by `>`. -/
def matchMentionAt : List Char → Option (List Char × List Char)
  | '<' :: '@' :: cs =>
    if (takeWord cs).1.isEmpty then none
    else
      match (takeWord cs).2 with
      | '>' :: rest => some ((takeWord cs).1, rest)
      | _ => none
  | _ => none

theorem matchMentionAt_length {l : List Char} {p : List Char × List Char}
    (h : matchMentionAt l = some p) : p.2.length < l.length := by
  unfold matchMentionAt at h
  split at h
  · rename_i cs
    split at h
    · exact absurd h (by simp)
    · split at h
      · rename_i rest heq
        have hle := takeWord_length_le cs
        rw [heq] at hle
        simp only [Option.some.injEq] at h
        subst h
        simp only [List.length_cons] at hle ⊢
        omega
      · exact absurd h (by simp)
  · exact absurd h (by simp)

/-- `re.search(SLACK_MENTION_REGEX, s)`: the capture group of the leftmost
match, if any. -/
def findMention : List Char → Option (List Char)
  | [] => none
  | c :: cs =>
    match matchMentionAt (c :: cs) with
    | some p => some p.1
    | none => findMention cs

/-- Worker for `re.sub`, structurally recursive on a fuel argument.  Every
step consumes at least one input character (`matchMentionAt_length`), so
fuel `l.length` is never exhausted and the fuel-0 equation is unreachable. -/
def stripMentionsAux : Nat → List Char → List Char
  | 0, l => l
  | _ + 1, [] => []
  | n + 1, c :: cs =>
    match matchMentionAt (c :: cs) with
    | some p => stripMentionsAux n p.2
    | none => c :: stripMentionsAux n cs

/-- `re.sub(SLACK_MENTION_REGEX, "", s)`: remove every non-overlapping
occurrence of the pattern, scanning left to right. -/
def stripMentions (l : List Char) : List Char :=
  stripMentionsAux l.length l

/-- Python `str.strip()`: drop leading and trailing whitespace. -/
def pyStrip (l : List Char) : List Char :=
  ((l.dropWhile isPySpace).reverse.dropWhile isPySpace).reverse

/-- Line 90: `re.sub(SLACK_MENTION_REGEX, "", message).strip()`. -/
def promptText (s : String) : String :=
  String.mk (pyStrip (stripMentions s.toList))

theorem findMention_ne_nil {l : List Char} {mid : List Char}
    (h : findMention l = some mid) : mid ≠ [] := by
  induction l with
  | nil => simp [findMention] at h
  | cons c cs ih =>
    unfold findMention at h
    split at h
    · rename_i p heq
      unfold matchMentionAt at heq
      split at heq
      · split at heq
        · exact absurd heq (by simp)
        · rename_i hne
          split at heq
          · simp only [Option.some.injEq] at heq h
            subst heq h
            simpa [List.isEmpty_iff] using hne
          · exact absurd heq (by simp)
      · exact absurd heq (by simp)
    · exact ih h

/-! ## Thread session store: `CACHE = TTLCache(maxsize=1000, ttl=86400)`

A cachetools `TTLCache` keeps an internal link order by last write
(inserts and refreshes move an entry to the end), stores per entry an
expiry instant `write time + ttl`, treats an entry as missing on read
when its expiry instant is strictly in the past, and on write first
drops expired entries and then, while over capacity, evicts the
first-linked (oldest by last write) entry.  The store is modelled as a
list of entries in last-write order, oldest first. -/

/-- A conversation history: the ordered messages of one thread session. -/
abbrev History := List String

/-- One store entry: key, expiry instant (last write time + ttl), history. -/
abbrev CacheEntry := String × ℤ × History

/-- The session store, as a list in last-write order (oldest write first),
mirroring the TTLCache link order. -/
abbrev Cache := List CacheEntry

/-- The entry currently stored under `k`, ignoring expiry. -/
def cacheGetEntry (c : Cache) (k : String) : Option (ℤ × History) :=
  (c.find? (fun e => e.1 == k)).map (fun e => e.2)

/-- `CACHE.get(k, default)` without the default: `none` when the key is
absent or its expiry instant is strictly before `now` (lazy expiry at
read time).  Reading does not mutate the store. -/
def cacheGet (c : Cache) (k : String) (now : ℤ) : Option History :=
  match cacheGetEntry c k with
  | none => none
  | some e => if e.1 < now then none else some e.2

/-- The `expire(time)` step run at the start of every write: drop all
entries whose expiry instant is strictly before `now`. -/
def cacheExpire (c : Cache) (now : ℤ) : Cache :=
  c.filter (fun e => !(decide (e.2.1 < now)))

/-- `CACHE[k] = v`: expire, unlink any existing entry for `k`, evict
oldest-by-last-write entries while over capacity, then link the fresh
entry at the end with expiry `now + ttl`. -/
def cachePut (c : Cache) (k : String) (v : History) (now ttl : ℤ) (m : Nat) : Cache :=
  let c1 := cacheExpire c now
  let c2 := c1.filter (fun e => !(e.1 == k))
  let c3 := if m < c2.length + 1 then c2.drop (c2.length + 1 - m) else c2
  c3 ++ [(k, now + ttl, v)]

/-- Line 20: configured time-to-live of the store (seconds). -/
def cacheTtl : ℤ := 86400

/-- Line 20: configured capacity of the store. -/
def cacheMaxsize : Nat := 1000

theorem cacheGetEntry_put (c : Cache) (k : String) (v : History) (now ttl : ℤ) (m : Nat) :
    cacheGetEntry (cachePut c k v now ttl m) k = some (now + ttl, v) := by
  unfold cachePut cacheGetEntry
  have hnone :
      ((if m < ((cacheExpire c now).filter (fun e => !(e.1 == k))).length + 1 then
          ((cacheExpire c now).filter (fun e => !(e.1 == k))).drop
            (((cacheExpire c now).filter (fun e => !(e.1 == k))).length + 1 - m)
        else
          ((cacheExpire c now).filter (fun e => !(e.1 == k)))).find?
        (fun e => e.1 == k)) = none := by
    rw [List.find?_eq_none]
    intro x hx
    have hx2 : x ∈ (cacheExpire c now).filter (fun e => !(e.1 == k)) := by
      split at hx
      · exact List.drop_subset _ _ hx
      · exact hx
    have := List.of_mem_filter hx2
    simpa using this
  rw [List.find?_append, hnone]
  simp [List.find?]

theorem cacheGet_put_fresh (c : Cache) (k : String) (v : History) (now ttl : ℤ) (m : Nat)
    (ht : 0 ≤ ttl) :
    cacheGet (cachePut c k v now ttl m) k now = some v := by
  unfold cacheGet
  rw [cacheGetEntry_put]
  have : ¬ (now + ttl < now) := by linarith
  simp [this]

theorem cachePut_length_le (c : Cache) (k : String) (v : History) (now ttl : ℤ) (m : Nat)
    (hm : 1 ≤ m) : (cachePut c k v now ttl m).length ≤ m := by
  unfold cachePut
  rw [List.length_append]
  split
  · rename_i hover
    rw [List.length_drop]
    simp only [List.length_cons, List.length_nil]
    omega
  · rename_i hunder
    simp only [List.length_cons, List.length_nil]
    omega

/-! ## Inbound payload model

Python passes the payload as a nested dict; `.get(key, default)` calls are
modelled with `Option` fields and `getD`. -/

/-- One element of the `authorizations` list. -/
structure Auth where
  user_id : Option String
deriving DecidableEq

/-- The nested `event` object of an `event_callback` payload. -/
structure SlackEvent where
  text : Option String
  channel : Option String
  ts : Option String
  thread_ts : Option String
deriving DecidableEq

/-- The top-level inbound payload. -/
structure Payload where
  type : Option String
  challenge : Option String
  event : Option SlackEvent
  authorizations : Option (List Auth)
deriving DecidableEq

/-- `payload.get("event", {})`. -/
def eventOf (p : Payload) : SlackEvent :=
  p.event.getD ⟨none, none, none, none⟩

/-- `event.get("text", "")`. -/
def eventText (p : Payload) : String := (eventOf p).text.getD ""

/-- `event.get("channel", "")`. -/
def eventChannel (p : Payload) : String := (eventOf p).channel.getD ""

/-- `event.get("ts", "")`. -/
def eventTs (p : Payload) : String := (eventOf p).ts.getD ""

/-- `event.get("thread_ts", "")`. -/
def eventThreadTs (p : Payload) : String := (eventOf p).thread_ts.getD ""

/-- Line 79: `payload.get("authorizations", [{}])[0].get("user_id", "")`.
`none` models the `IndexError` raised when `authorizations` is present but
an empty list; otherwise the responder's own user id (defaulting to `""`). -/
def botUserId (p : Payload) : Option String :=
  match p.authorizations with
  | none => some ""
  | some [] => none
  | some (a :: _) => some (a.user_id.getD "")

/-! ## Response dispatcher: `generate_ai_response` -/

/-- The externally observable effects the dispatcher performs, in order:
a response-engine invocation (with the history and prompt passed to it),
a session-store write, and an outbound `chat.postMessage` attempt
(channel, text, thread anchor). -/
inductive Effect where
  | engineCall : History → String → Effect
  | cacheWrite : String → History → Effect
  | postAttempt : String → String → String → Effect
deriving DecidableEq

/-- The response engine (`bot.run` on a `Bot` seeded with the loaded
history): an opaque external capability that, given the seeded history and
the prompt text, either fails (`none`, an exception) or returns the reply
content together with the bot's updated history. -/
abbrev Engine := History → String → Option (String × History)

/-- Outcome of one dispatcher run: final session store, ordered effect
trace, whether an exception propagated out of the coroutine, and the
value returned (the reply content, when one is returned). -/
structure DispatchResult where
  cache : Cache
  trace : List Effect
  raised : Bool
  returned : Option String
deriving DecidableEq

/-- Lines 75-114, `generate_ai_response(payload)`.  `engine` stands for the
external response engine and `postOk` for whether the outbound
`chat.postMessage` succeeds (`_post_message` raises on a non-success
status).  `cache` and `now` are the session store and the current time.
Note the store is read and written under the raw `thread_ts` value (line 91
and line 107), while the outbound post is anchored at `thread_ts or ts`
(line 111). -/
def generate_ai_response (engine : Engine) (postOk : Bool) (cache : Cache)
    (now : ℤ) (p : Payload) : DispatchResult :=
  match botUserId p with
  | none => ⟨cache, [], true, none⟩
  | some bot_user_id =>
    match findMention (eventText p).toList with
    | none => ⟨cache, [], false, none⟩
    | some mid =>
      if String.mk mid = bot_user_id then
        let prompt := promptText (eventText p)
        let history := (cacheGet cache (eventThreadTs p) now).getD []
        match engine history prompt with
        | none => ⟨cache, [.engineCall history prompt], true, none⟩
        | some r =>
          ⟨cachePut cache (eventThreadTs p) r.2 now cacheTtl cacheMaxsize,
           [.engineCall history prompt,
            .cacheWrite (eventThreadTs p) r.2,
            .postAttempt (eventChannel p) r.1
              (if eventThreadTs p = "" then eventTs p else eventThreadTs p)],
           !postOk,
           if postOk then some r.1 else none⟩
      else
        ⟨cache, [], false, none⟩

/-- The outbound post attempts recorded in a dispatcher run, in order:
(channel, text, thread anchor). -/
def posts (r : DispatchResult) : List (String × String × String) :=
  r.trace.filterMap fun e =>
    match e with
    | .postAttempt ch tx th => some (ch, tx, th)
    | _ => none

/-! ## Webhook entry point: `handle_message` -/

/-- What `handle_message` hands back to the web framework: a JSON body
(an association list) or an `HTTPException` with a status code and detail. -/
inductive HandleResult where
  | body : List (String × String) → HandleResult
  | httpError : Nat → String → HandleResult
deriving DecidableEq

/-- Outcome of `handle_message`: the response, and whether a background
dispatcher task was scheduled (`asyncio.create_task`). -/
structure HandleOutcome where
  result : HandleResult
  scheduled : Bool
deriving DecidableEq

/-- Lines 117-128, `handle_message(payload)`. -/
def handle_message (p : Payload) : HandleOutcome :=
  let event_type := p.type.getD ""
  if event_type = "url_verification" then
    ⟨.body [("challenge", p.challenge.getD "")], false⟩
  else if event_type ≠ "event_callback" then
    ⟨.httpError 400 "Invalid event type", false⟩
  else
    ⟨.body [("status", "ok")], true⟩

/-! ## Concrete fixtures for the spec's end-to-end scenario -/

/-- A concrete successful engine for concrete runs: replies
`"Hello human."` and appends the prompt and the reply to the history. -/
def demoEngine : Engine :=
  fun h p => some ("Hello human.", h ++ [p, "Hello human."])

/-- The spec's end-to-end scenario payload: `{type: "event_callback",
event: {text: "<@BOT> hello", channel: "C1", ts: "1.0", thread_ts: ""},
authorizations: [{user_id: "BOT"}]}`. -/
def payloadE2E : Payload :=
  { type := some "event_callback"
    challenge := none
    event := some { text := some "<@BOT> hello", channel := some "C1",
                    ts := some "1.0", thread_ts := some "" }
    authorizations := some [{ user_id := some "BOT" }] }

/-- Payload with a message text whose first mention references another
user (`U999`) while the responder (`BOT`) is only mentioned later. -/
def payloadWrongMention : Payload :=
  { type := some "event_callback"
    challenge := none
    event := some { text := some "<@U999> hey <@BOT> please help", channel := some "C1",
                    ts := some "2.0", thread_ts := some "" }
    authorizations := some [{ user_id := some "BOT" }] }

/-- An `event_callback` payload with no mention token in its text but an
explicitly empty `authorizations` list. -/
def payloadEmptyAuth : Payload :=
  { type := some "event_callback"
    challenge := none
    event := some { text := some "hello there", channel := some "C1",
                    ts := some "1.0", thread_ts := some "" }
    authorizations := some [] }

/-- The addressing condition under which the dispatcher stays silent:
the text contains no mention token, or the first mention's id differs
from `b`. -/
def notAddressed (p : Payload) (b : String) : Bool :=
  match findMention (eventText p).toList with
  | none => true
  | some mid => String.mk mid != b

/-! ## Claims -/

/-- C1: on the spec's end-to-end scenario (thread_ts `""`, ts `"1.0"`),
the dispatcher makes exactly one outbound post to channel `"C1"` anchored
at `"1.0"`, but the session store is read and written under the raw
`thread_ts` value `""` rather than under ThreadKey `"1.0"`: afterwards
`get("1.0")` is a miss and the history sits under `""`.  This contradicts
the claim's (and the spec's) requirement that the store is keyed by
ThreadKey and that `get("1.0")` returns a non-empty history. -/
theorem C1_threadkey_code_bug :
    posts (generate_ai_response demoEngine true [] 0 payloadE2E) =
      [("C1", "Hello human.", "1.0")] ∧
    cacheGet (generate_ai_response demoEngine true [] 0 payloadE2E).cache "1.0" 0 = none ∧
    cacheGet (generate_ai_response demoEngine true [] 0 payloadE2E).cache "" 0 =
      some ["hello", "Hello human."] := by
  decide

/-- C2: for every payload of type `url_verification` carrying a challenge
string, `handle_message` returns a body whose `challenge` field is that
exact string, schedules no dispatcher work, and performs no other side
effect. -/
theorem C2_url_verification_echo (p : Payload) (s : String)
    (hty : p.type = some "url_verification") (hch : p.challenge = some s) :
    handle_message p = ⟨.body [("challenge", s)], false⟩ := by
  simp [handle_message, hty, hch]

/-- Witness for C2 at a concrete payload with an empty challenge string. -/
theorem C2_witness :
    handle_message ⟨some "url_verification", some "", none, none⟩ =
      ⟨.body [("challenge", "")], false⟩ :=
  C2_url_verification_echo _ _ rfl rfl

/-- C3: for every payload whose type is neither `url_verification` nor
`event_callback`, `handle_message` fails with a 400 client error and
schedules no dispatcher work, so no outbound call or store mutation
happens. -/
theorem C3_invalid_type_client_error (p : Payload)
    (h1 : p.type.getD "" ≠ "url_verification")
    (h2 : p.type.getD "" ≠ "event_callback") :
    handle_message p = ⟨.httpError 400 "Invalid event type", false⟩ := by
  simp [handle_message, h1, h2]

/-- Witness for C3 at a concrete unrecognized event type. -/
theorem C3_witness :
    handle_message ⟨some "app_rate_limited", none, none, none⟩ =
      ⟨.httpError 400 "Invalid event type", false⟩ :=
  C3_invalid_type_client_error _ (by decide) (by decide)

/-- C4: whenever the dispatcher invokes the response engine, the prompt it
passes is the event text with every occurrence of the mention pattern
`<@(\w+)>` removed and surrounding whitespace trimmed; in particular the
text `"<@U123> what is up"` yields the prompt `"what is up"`. -/
theorem C4_prompt_stripping (engine : Engine) (postOk : Bool) (cache : Cache)
    (now : ℤ) (p : Payload) (h : History) (q : String)
    (hmem : Effect.engineCall h q ∈ (generate_ai_response engine postOk cache now p).trace) :
    q = promptText (eventText p) ∧
    promptText "<@U123> what is up" = "what is up" := by
  refine ⟨?_, by decide⟩
  cases hbot : botUserId p with
  | none =>
    simp only [generate_ai_response, hbot] at hmem
    simp at hmem
  | some b =>
    cases hfm : findMention (eventText p).toList with
    | none =>
      simp only [generate_ai_response, hbot, hfm] at hmem
      simp at hmem
    | some mid =>
      by_cases haddr : String.mk mid = b
      · cases hcase : engine ((cacheGet cache (eventThreadTs p) now).getD [])
            (promptText (eventText p)) with
        | none =>
          simp only [generate_ai_response, hbot, hfm, if_pos haddr, hcase,
            List.mem_singleton, Effect.engineCall.injEq] at hmem
          exact hmem.2
        | some r =>
          simp only [generate_ai_response, hbot, hfm, if_pos haddr, hcase] at hmem
          simp at hmem
          exact hmem.2
      · simp only [generate_ai_response, hbot, hfm, if_neg haddr] at hmem
        simp at hmem

/-- Witness for C4 at the end-to-end payload, whose engine call receives
the stripped prompt `"hello"`. -/
theorem C4_witness :
    "hello" = promptText (eventText payloadE2E) ∧
    promptText "<@U123> what is up" = "what is up" :=
  C4_prompt_stripping demoEngine true [] 0 payloadE2E [] "hello" (by decide)

/-- C5 counterexample: an `event_callback` payload whose text contains no
mention token but whose `authorizations` field is an explicitly empty
list makes `generate_ai_response` raise (the `IndexError` from
`payload.get("authorizations", [{}])[0]`, evaluated before the mention
search), contradicting the claim's "no error raised" for every
no-mention payload. -/
theorem C5_counterexample :
    (generate_ai_response demoEngine true [] 0 payloadEmptyAuth).raised = true := by
  decide

/-- C5 (amended): provided `authorizations` is absent or non-empty (so
line 79 yields a responder id `b` instead of raising), a payload whose
text has no mention token, or whose first mention's id differs from `b`,
makes the dispatcher terminate silently: no engine invocation, no
outbound post, no store mutation, no error. -/
theorem C5_silent_termination (engine : Engine) (postOk : Bool) (cache : Cache)
    (now : ℤ) (p : Payload) (b : String)
    (hb : botUserId p = some b) (hna : notAddressed p b = true) :
    generate_ai_response engine postOk cache now p = ⟨cache, [], false, none⟩ := by
  cases hfm : findMention (eventText p).toList with
  | none => simp only [generate_ai_response, hb, hfm]
  | some mid =>
    have hne : String.mk mid ≠ b := by
      unfold notAddressed at hna
      rw [hfm] at hna
      simpa using hna
    simp only [generate_ai_response, hb, hfm, if_neg hne]

/-- Witness for C5 at a payload whose first mention references `U999`
while the responder id is `BOT`. -/
theorem C5_witness :
    generate_ai_response demoEngine true [] 0 payloadWrongMention = ⟨[], [], false, none⟩ :=
  C5_silent_termination demoEngine true [] 0 payloadWrongMention "BOT" (by decide) (by decide)

/-- C6: an entry written at time `T` (so with expiry instant `T + ttl`)
is never returned by a read at any time strictly later than `T + ttl`:
the read is a miss, not the stale entry. -/
theorem C6_expiry_read_miss (c : Cache) (k : String) (v : History)
    (T ttl : ℤ) (m : Nat) (t : ℤ) (h : T + ttl < t) :
    cacheGet (cachePut c k v T ttl m) k t = none := by
  unfold cacheGet
  rw [cacheGetEntry_put]
  simp [h]

/-- Witness for C6: a write at time 0 with the configured ttl read one
second past expiry. -/
theorem C6_witness :
    cacheGet (cachePut [] "1.0" ["hi"] 0 86400 1000) "1.0" 86401 = none :=
  C6_expiry_read_miss [] "1.0" ["hi"] 0 86400 1000 86401 (by decide)

/-- A sequence of store writes: each operation carries the key, the
history to store, the write time, and the ttl in force. -/
def putSeq (m : Nat) (ops : List (String × History × ℤ × ℤ)) (c : Cache) : Cache :=
  ops.foldl (fun acc op => cachePut acc op.1 op.2.1 op.2.2.1 op.2.2.2 m) c

theorem putSeq_length_le (m : Nat) (hm : 1 ≤ m) (ops : List (String × History × ℤ × ℤ))
    (c : Cache) (hc : c.length ≤ m) : (putSeq m ops c).length ≤ m := by
  induction ops generalizing c with
  | nil => simpa [putSeq] using hc
  | cons op rest ih =>
    simp only [putSeq, List.foldl_cons]
    exact ih _ (cachePut_length_le _ _ _ _ _ _ hm)

theorem cachePut_at_capacity (c : Cache) (k : String) (v : History) (now ttl : ℤ)
    (m : Nat) (hm : 1 ≤ m) (hfull : c.length = m)
    (hlive : ∀ e ∈ c, ¬ (e.2.1 < now)) (hfresh : ∀ e ∈ c, (e.1 == k) = false) :
    cachePut c k v now ttl m = c.drop 1 ++ [(k, now + ttl, v)] := by
  have h1 : cacheExpire c now = c := by
    unfold cacheExpire
    rw [List.filter_eq_self]
    intro e he
    simpa using hlive e he
  have h2 : c.filter (fun e => !(e.1 == k)) = c := by
    rw [List.filter_eq_self]
    intro e he
    simp [hfresh e he]
  simp only [cachePut, h1, h2, hfull]
  rw [if_pos (by omega : m < m + 1)]
  have h3 : m + 1 - m = 1 := by omega
  rw [h3]

/-- C7: (a) for every sequence of put operations starting from a store
within capacity `m ≥ 1`, the entry count never exceeds `m`; (b) a put on
a new key into a store at capacity (no expired entries) evicts exactly
the first entry in last-write order — the oldest by last-write time —
and admits the new key at the end. -/
theorem C7_capacity_bound (m : Nat) (hm : 1 ≤ m)
    (ops : List (String × History × ℤ × ℤ)) (c0 : Cache) (hc0 : c0.length ≤ m)
    (c : Cache) (k : String) (v : History) (now ttl : ℤ)
    (hfull : c.length = m) (hlive : ∀ e ∈ c, ¬ (e.2.1 < now))
    (hfresh : ∀ e ∈ c, (e.1 == k) = false) :
    (putSeq m ops c0).length ≤ m ∧
    cachePut c k v now ttl m = c.drop 1 ++ [(k, now + ttl, v)] :=
  ⟨putSeq_length_le m hm ops c0 hc0,
   cachePut_at_capacity c k v now ttl m hm hfull hlive hfresh⟩

/-- Witness for C7: two writes through a capacity-1 store, and a put on a
fresh key into a full capacity-1 store evicting its only (oldest) entry. -/
theorem C7_witness :
    (putSeq 1 [("a", ["x"], 0, 10), ("b", ["y"], 1, 10)] []).length ≤ 1 ∧
    cachePut [("a", (5 : ℤ), ["x"])] "b" ["y"] 4 10 1 =
      [("a", (5 : ℤ), ["x"])].drop 1 ++ [("b", 14, ["y"])] :=
  C7_capacity_bound 1 (by decide) [("a", ["x"], 0, 10), ("b", ["y"], 1, 10)] []
    (by decide) [("a", (5 : ℤ), ["x"])] "b" ["y"] 4 10 (by decide) (by decide) (by decide)

/-- C8: with a response engine that fails (raises) before producing a
reply, every dispatcher run posts nothing and leaves the session store
exactly as it was — any pre-existing history entry is unchanged. -/
theorem C8_engine_failure_no_effects (postOk : Bool) (cache : Cache)
    (now : ℤ) (p : Payload) :
    (generate_ai_response (fun _ _ => none) postOk cache now p).cache = cache ∧
    posts (generate_ai_response (fun _ _ => none) postOk cache now p) = [] := by
  cases hbot : botUserId p with
  | none =>
    simp only [generate_ai_response, hbot]
    simp [posts]
  | some b =>
    cases hfm : findMention (eventText p).toList with
    | none =>
      simp only [generate_ai_response, hbot, hfm]
      simp [posts]
    | some mid =>
      by_cases haddr : String.mk mid = b
      · simp only [generate_ai_response, hbot, hfm, if_pos haddr]
        simp [posts]
      · simp only [generate_ai_response, hbot, hfm, if_neg haddr]
        simp [posts]

/-- C9: after a successful engine call, the dispatcher's effect order is
engine call, then session-store write, then outbound post attempt; the
store holds the engine's updated history immediately after the run — in
particular still when the post attempt fails (`postOk = false`), whose
only consequence is the propagated exception. -/
theorem C9_write_before_post (engine : Engine) (postOk : Bool) (cache : Cache)
    (now : ℤ) (p : Payload) (b : String) (mid : List Char)
    (reply : String) (newHist : History)
    (hb : botUserId p = some b)
    (hm : findMention (eventText p).toList = some mid)
    (haddr : String.mk mid = b)
    (heng : engine ((cacheGet cache (eventThreadTs p) now).getD [])
        (promptText (eventText p)) = some (reply, newHist)) :
    (generate_ai_response engine postOk cache now p).trace =
      [.engineCall ((cacheGet cache (eventThreadTs p) now).getD [])
         (promptText (eventText p)),
       .cacheWrite (eventThreadTs p) newHist,
       .postAttempt (eventChannel p) reply
         (if eventThreadTs p = "" then eventTs p else eventThreadTs p)] ∧
    cacheGet (generate_ai_response engine postOk cache now p).cache
      (eventThreadTs p) now = some newHist ∧
    (postOk = false → (generate_ai_response engine postOk cache now p).raised = true) := by
  have hgen : generate_ai_response engine postOk cache now p =
      ⟨cachePut cache (eventThreadTs p) newHist now cacheTtl cacheMaxsize,
       [.engineCall ((cacheGet cache (eventThreadTs p) now).getD [])
          (promptText (eventText p)),
        .cacheWrite (eventThreadTs p) newHist,
        .postAttempt (eventChannel p) reply
          (if eventThreadTs p = "" then eventTs p else eventThreadTs p)],
       !postOk,
       if postOk then some reply else none⟩ := by
    simp only [generate_ai_response, hb, hm, if_pos haddr, heng]
  rw [hgen]
  refine ⟨rfl, ?_, ?_⟩
  · exact cacheGet_put_fresh cache (eventThreadTs p) newHist now cacheTtl cacheMaxsize
      (by decide)
  · intro hpost
    rw [hpost]
    rfl

/-- Witness for C9 at the end-to-end payload with a failing post. -/
theorem C9_witness :
    (generate_ai_response demoEngine false [] 0 payloadE2E).trace =
      [.engineCall ((cacheGet [] (eventThreadTs payloadE2E) 0).getD [])
         (promptText (eventText payloadE2E)),
       .cacheWrite (eventThreadTs payloadE2E) ["hello", "Hello human."],
       .postAttempt (eventChannel payloadE2E) "Hello human."
         (if eventThreadTs payloadE2E = "" then eventTs payloadE2E
          else eventThreadTs payloadE2E)] ∧
    cacheGet (generate_ai_response demoEngine false [] 0 payloadE2E).cache
      (eventThreadTs payloadE2E) 0 = some ["hello", "Hello human."] ∧
    (false = false → (generate_ai_response demoEngine false [] 0 payloadE2E).raised = true) :=
  C9_write_before_post demoEngine false [] 0 payloadE2E "BOT" ['B', 'O', 'T']
    "Hello human." ["hello", "Hello human."] (by decide) (by decide) (by decide) (by decide)

/-- C10: when the `authorizations` key is absent, the responder id
defaults to `""`, which no matched mention id (a nonempty word) can
equal, so the dispatcher completes without raising and with no engine
invocation, post, or store mutation; moreover only the first mention in
the text is compared against the responder id, so a text whose first
mention references `U999` gets no reply even though `BOT` is mentioned
later. -/
theorem C10_missing_authorizations (engine : Engine) (postOk : Bool) (cache : Cache)
    (now : ℤ) (p : Payload) (hauth : p.authorizations = none) :
    generate_ai_response engine postOk cache now p = ⟨cache, [], false, none⟩ ∧
    generate_ai_response demoEngine true [] 0 payloadWrongMention = ⟨[], [], false, none⟩ := by
  constructor
  · have hb : botUserId p = some "" := by simp [botUserId, hauth]
    cases hfm : findMention (eventText p).toList with
    | none => simp only [generate_ai_response, hb, hfm]
    | some mid =>
      have hmidne := findMention_ne_nil hfm
      have hne : String.mk mid ≠ "" := by
        intro hcon
        exact hmidne (congrArg String.data hcon)
      simp only [generate_ai_response, hb, hfm, if_neg hne]
  · decide

/-- Witness for C10 at a payload with no `authorizations` key and a text
that does mention another user. -/
theorem C10_witness :
    generate_ai_response demoEngine true [] 0
      ⟨some "event_callback", none,
       some ⟨some "<@U123> what is up", some "C1", some "3.0", none⟩, none⟩ =
      ⟨[], [], false, none⟩ ∧
    generate_ai_response demoEngine true [] 0 payloadWrongMention = ⟨[], [], false, none⟩ :=
  C10_missing_authorizations demoEngine true [] 0
    ⟨some "event_callback", none,
     some ⟨some "<@U123> what is up", some "C1", some "3.0", none⟩, none⟩ rfl

end Slackbot
